import Mathlib

/-!
Biscotti, `DistSys/main.go`: the round orchestration of one peer.

A shallow embedding of the round state machine of `src/DistSys/main.go`:
verifier election (`amVerifier`, `VRF`), the inbound RPC handlers
(`VerifyUpdate`, `RegisterBlock`), the round advance
(`prepareForNextIteration`), quorum detection (`processUpdate`), the block
broadcast (`sendBlock`, `ensureRPCCallsReturn`, `callRegisterBlockRPC`) and
the chain append (`addBlockToChain`).

Conventions of the embedding.

* Go `int` is the 64-bit signed integer.  A value is an `Int` of the range
  `-2^63 .. 2^63 - 1`, and every addition and subtraction of the source is
  followed by `wrapInt`, the wrap-around of that range.
* The package-level variables are the fields of `Globals`; a function that
  reads or writes them takes and returns a `Globals`.
* A function that can end the process (`os.Exit`, `log.Fatalf`), hit a run-time
  panic, or wait on something another goroutine has to provide returns an
  `Outcome`.
* What another goroutine does while a function sleeps or waits is an explicit
  argument: the values of `iterationCount` seen after each `time.Sleep` (the
  `polls` of a handler), the fate of each RPC attempt (a `List Attempt`).
* Methods of `Honest` and of the block chain live in other files of the
  package; the few that are needed are modelled from the specification and
  marked so.  `client.checkConvergence` is an arbitrary function of the
  globals.
* A peer under inbound `RegisterBlock` traffic is a `Node`: the globals, the
  handlers that sleep, the `addBlockToChain` goroutines that were started, and
  a step function whose steps are the pieces of code between two points at
  which a goroutine sleeps or is scheduled.
-/

namespace Biscotti

/-! ## Constants and data -/

/-- Constant `basePort` of the source. -/
def basePort : Int := 8000

/-- Constant `numVerifiers` of the source. -/
def numVerifiers : Nat := 1

/-- A Go `error` value, identified by its message. -/
structure GoError where
  msg : String
  deriving DecidableEq, Repr

/-- Package variable `staleError`. -/
def staleError : GoError := ⟨"Stale Update/Block"⟩

/-- Modelled from the spec: the type `Update` is declared outside `main.go`.
`Iteration` is the field `main.go` reads; `SourceID` is the `senderID` of the
specification's data model (section 3). -/
structure Update where
  Iteration : Int
  SourceID : Int
  deriving DecidableEq, Repr

/-- Modelled from the spec: the payload record of a `Block`; `main.go` reads
`block.Data.Iteration`. -/
structure BlockData where
  Iteration : Int
  deriving DecidableEq, Repr

/-- Modelled from the spec: the type `Block` is declared outside `main.go`. -/
structure Block where
  Data : BlockData
  deriving DecidableEq, Repr

/-- Modelled from the spec: the chain `client.bc`, an ordered sequence of
blocks (section 3). -/
structure Blockchain where
  Blocks : List Block
  deriving DecidableEq, Repr

/-- The fields of `Honest` that `main.go` touches: `id` and `blockUpdates` (set
in `main`), `update` (read by `messageSender`) and `bc`. -/
structure Honest where
  id : Int
  update : Update
  blockUpdates : List Update
  bc : Blockchain
  deriving DecidableEq, Repr

/-- The package-level variables of `main.go` (the locks and loggers carry no
data and are left out; the channel `ensureRPC` is modelled by the number of
values sent on it). -/
structure Globals where
  datasetName : String
  numberOfNodes : Int
  client : Honest
  portsToConnect : List String
  clusterPorts : List String
  updateSent : Bool
  converged : Bool
  verifier : Bool
  iterationCount : Int
  deriving DecidableEq, Repr

/-- How a call of a function of `main.go` ends. -/
inductive Outcome where
  /-- The function returned; the globals are as given. -/
  | returned (g : Globals)
  /-- The process was ended by `os.Exit(1)` / `log.Fatalf`; `g` are the globals
  at that moment and `printed` is what `PrintChain` emitted, if it ran. -/
  | exited (g : Globals) (printed : Option (List Block))
  /-- The goroutine has entered the converged branch of
  `prepareForNextIteration`: it has released `convergedLock` and sleeps
  1000 ms, the other goroutines running on; `PrintChain` and `os.Exit(1)`
  follow when it wakes (`exitAfterSleep`). -/
  | exiting (g : Globals)
  /-- A run-time panic (integer division by zero). -/
  | panicked (g : Globals)
  /-- The function is waiting for a value that has not been provided. -/
  | blocked (g : Globals)
  deriving DecidableEq, Repr

/-! ## `strconv.Itoa` -/

/-- Go `strconv.Itoa`: the decimal rendering of an integer. -/
def Itoa (i : Int) : String :=
  match i with
  | Int.ofNat n => Nat.repr n
  | Int.negSucc n => "-" ++ Nat.repr (n + 1)

/-- Value of a decimal digit character. -/
def digitVal (c : Char) : Nat := c.toNat - 48

/-- Reads a list of decimal digits back as a number. -/
def Atoi (cs : List Char) : Nat := cs.foldl (fun acc c => acc * 10 + digitVal c) 0

/-! ## Machine integers -/

/-- The wrap-around of Go `int` (64 bits, two's complement): the value a sum
or difference `x` of two `int` values has in the source. -/
def wrapInt (x : Int) : Int :=
  (x + 9223372036854775808) % 18446744073709551616 - 9223372036854775808

/-- The largest Go `int`. -/
def maxInt : Int := 9223372036854775807

/-- The smallest Go `int`. -/
def minInt : Int := -9223372036854775808

/-! ## Verifier election -/

/-- Go `a % b` on `int`: truncated remainder, run-time panic when `b = 0`
(`none`). -/
def goRem (a b : Int) : Option Int :=
  if b = 0 then none else some (Int.tmod a b)

/-- Function `amVerifier`: the argument `nodeNum` is ignored by the source,
which compares with `client.id`.  `none` is the division-by-zero panic. -/
def amVerifier (g : Globals) (_nodeNum : Int) : Option Bool :=
  match goRem g.iterationCount g.numberOfNodes with
  | none => none
  | some r => if r = g.client.id then some true else some false

/-- Function `VRF`: a slice of `numVerifiers` strings whose entry `0` is the
port of the round's verifier.  `none` is the division-by-zero panic. -/
def VRF (g : Globals) (iterationCount : Int) : Option (List String) :=
  let verifiers := List.replicate numVerifiers ""
  match goRem iterationCount g.numberOfNodes with
  | none => none
  | some r => some (verifiers.set 0 (Itoa (wrapInt (basePort + r))))

/-- The port a node listens on, `myPort := strconv.Itoa(nodeNum + basePort)` in
`main`. -/
def myPort (nodeNum : Int) : String := Itoa (wrapInt (nodeNum + basePort))

/-- The globals `g` with round `i`, `T` nodes and own index `id`. -/
def atRound (g : Globals) (i T id : Int) : Globals :=
  { g with iterationCount := i, numberOfNodes := T, client := { g.client with id := id } }

/-! ## Inbound handlers -/

/-- Function `handleErrorFatal`: `true` when it ends the process, which it does
exactly for a non-nil error (`errLog.Fatalf`). -/
def handleErrorFatal (e : Option GoError) : Bool := e.isSome

/-- Function `exitOnError`: `true` when it ends the process (`os.Exit(1)`),
which it does exactly for a non-nil error. -/
def exitOnError (err : Option GoError) : Bool := err.isSome

/-- How a call of an inbound handler ends.  `α` is the payload type. -/
inductive HandlerResult (α : Type) where
  /-- The fatal path: `handleErrorFatal` ended the process on error `e`; no
  goroutine was started. -/
  | fatal (e : GoError)
  /-- The handler returned `err` to the caller after `sleeps` rounds of
  `time.Sleep`, having started one background goroutine for each payload of
  `spawned`. -/
  | returned (err : Option GoError) (spawned : List α) (sleeps : Nat)
  /-- The handler is still inside its sleep loop after `sleeps` sleeps: it has
  neither returned nor started anything. -/
  | waiting (sleeps : Nat)
  deriving DecidableEq, Repr

/-- The loop `for m > iterationCount { time.Sleep(1000 * time.Millisecond) }`.
`c` is the value of `iterationCount` at the first test and `polls` are the
values found after each sleep.  The result is the number of sleeps after which
the loop was left, or `none` when the loop is still running after the last
poll. -/
def awaitIteration (m : Int) : Int → List Int → Option Nat
  | c, [] => if m > c then none else some 0
  | c, c' :: rest => if m > c then (awaitIteration m c' rest).map (· + 1) else some 0

/-- Method `Peer.VerifyUpdate`.  `g` holds the globals on entry and `polls`
the values of `iterationCount` found after each sleep. -/
def VerifyUpdate (g : Globals) (polls : List Int) (update : Update) : HandlerResult Update :=
  if update.Iteration < g.iterationCount then
    if handleErrorFatal (some staleError) then HandlerResult.fatal staleError
    else HandlerResult.returned (some staleError) [] 0
  else
    match awaitIteration update.Iteration g.iterationCount polls with
    | none => HandlerResult.waiting polls.length
    | some k => HandlerResult.returned none [update] k

/-- Method `Peer.RegisterBlock`.  `g` holds the globals on entry and `polls`
the values of `iterationCount` found after each sleep. -/
def RegisterBlock (g : Globals) (polls : List Int) (block : Block) : HandlerResult Block :=
  if block.Data.Iteration < g.iterationCount then
    if handleErrorFatal (some staleError) then HandlerResult.fatal staleError
    else HandlerResult.returned (some staleError) [] 0
  else
    match awaitIteration block.Data.Iteration g.iterationCount polls with
    | none => HandlerResult.waiting polls.length
    | some k => HandlerResult.returned none [block] k

/-! ## Round advance -/

/-- Modelled from the spec: `client.flushUpdates` is defined outside `main.go`;
it discards the entries left in the pending-update buffer (section 4.1,
step 2). -/
def flushUpdates (c : Honest) (_numberOfNodes : Int) : Honest :=
  { c with blockUpdates := [] }

/-- Modelled from the spec: `client.bc.PrintChain` is defined outside
`main.go`; it emits the chain to the external sink (section 3, lifecycle). -/
def PrintChain (bc : Blockchain) : List Block := bc.Blocks

/-- The end of the converged branch of `prepareForNextIteration`, after its
sleep: `client.bc.PrintChain()` and `os.Exit(1)`, on the globals `g` found at
that moment. -/
def exitAfterSleep (g : Globals) : Outcome :=
  Outcome.exited g (some (PrintChain g.client.bc))

/-- Function `prepareForNextIteration`.  In the converged branch the result is
`Outcome.exiting`: the goroutine sleeps, and `exitAfterSleep` ends the process
when it wakes. -/
def prepareForNextIteration (g : Globals) : Outcome :=
  if g.converged then
    Outcome.exiting g
  else
    let g1 := if g.verifier then { g with client := flushUpdates g.client g.numberOfNodes } else g
    let g2 := { g1 with iterationCount := wrapInt (g1.iterationCount + 1) }
    match amVerifier g2 g2.client.id with
    | none => Outcome.panicked g2
    | some v =>
      let g3 := { g2 with verifier := v }
      let g4 := if g3.verifier then { g3 with updateSent := true } else { g3 with updateSent := false }
      Outcome.returned { g4 with portsToConnect := g4.clusterPorts }

/-- The result of `k` consecutive calls of `prepareForNextIteration`, each on
the globals the previous one returned. -/
def advanceRounds : Nat → Globals → Outcome
  | 0, g => Outcome.returned g
  | k + 1, g =>
    match prepareForNextIteration g with
    | Outcome.returned g1 => advanceRounds k g1
    | o => o

/-! ## Start-up (`main`) -/

/-- The values of the package variables before `main` runs. -/
def zeroGlobals : Globals :=
  { datasetName := "", numberOfNodes := 0,
    client := { id := 0, update := ⟨0, 0⟩, blockUpdates := [], bc := ⟨[]⟩ },
    portsToConnect := [], clusterPorts := [],
    updateSent := false, converged := false, verifier := false, iterationCount := -1 }

/-- The flag test of `main`: `true` when `main` prints the defaults and
exits. -/
def flagsRejected (numberOfNodes nodeNum : Int) (datasetName : String) : Bool :=
  decide (numberOfNodes ≤ 0) || decide (nodeNum < 0) || decide (datasetName = "")

/-- The loop of `main` that fills `clusterPorts`: for `i` from `0` below
`numberOfNodes`, skip the own port and append every other one. -/
def buildClusterPorts (numberOfNodes nodeNum : Int) : List String :=
  (List.range numberOfNodes.toNat).foldl
    (fun (ports : List String) (i : Nat) =>
      if Itoa (wrapInt (basePort + (i : Int))) = myPort nodeNum then ports
      else ports ++ [Itoa (wrapInt (basePort + (i : Int)))])
    []

/-- Function `main` up to and including its call of `prepareForNextIteration`
(the listener and sender loops that follow never return).  The arguments are
the parsed flags `-t`, `-i` and `-d`.  Modelled from the spec: the chain of a
fresh client is empty (`initializeData` is defined outside `main.go`). -/
def main (numberOfNodes nodeNum : Int) (datasetName : String) : Outcome :=
  let g0 := { zeroGlobals with numberOfNodes := numberOfNodes, datasetName := datasetName }
  if flagsRejected numberOfNodes nodeNum datasetName then
    Outcome.exited g0 none
  else
    let g1 := { g0 with clusterPorts := buildClusterPorts numberOfNodes nodeNum }
    let g2 := { g1 with client := { g1.client with id := nodeNum, blockUpdates := [] } }
    let g3 := { g2 with converged := false, verifier := false }
    prepareForNextIteration g3

/-! ## Block broadcast -/

/-- The fate of one attempt of `callRegisterBlockRPC`, decided by the network
and the remote peer. -/
inductive Attempt where
  /-- The dial `rpc.Dial` returned the error `e`. -/
  | dialFailed (e : GoError)
  /-- The timer `time.After(timeoutNS)` fired before the call answered. -/
  | timedOut
  /-- The call `Peer.RegisterBlock` answered with `err` (`none` is `nil`). -/
  | replied (err : Option GoError)
  deriving DecidableEq, Repr

/-- Where a `callRegisterBlockRPC` goroutine stands. -/
inductive CallStatus where
  /-- It sent its value on `ensureRPC` and finished. -/
  | delivered
  /-- It ended the process. -/
  | fatal
  /-- It is still waiting for an answer or a timeout. -/
  | pending
  deriving DecidableEq, Repr

/-- What one `callRegisterBlockRPC` goroutine did: the `(block, port)` of every
attempt it made, the values it sent on `ensureRPC`, and where it stands. -/
structure CallTrace where
  attempts : List (Block × String)
  sent : List (Option GoError)
  status : CallStatus
  deriving DecidableEq, Repr

/-- Function `callRegisterBlockRPC`; the list gives the fate of its successive
attempts. -/
def callRegisterBlockRPC (block : Block) (port : String) : List Attempt → CallTrace
  | [] => ⟨[(block, port)], [], CallStatus.pending⟩
  | Attempt.dialFailed e :: _ =>
    if exitOnError (some e) then ⟨[(block, port)], [], CallStatus.fatal⟩
    else ⟨[(block, port)], [], CallStatus.pending⟩
  | Attempt.replied err :: _ =>
    if handleErrorFatal err then ⟨[(block, port)], [], CallStatus.fatal⟩
    else ⟨[(block, port)], [err], CallStatus.delivered⟩
  | Attempt.timedOut :: rest =>
    let t := callRegisterBlockRPC block port rest
    ⟨(block, port) :: t.attempts, t.sent, t.status⟩

/-- The loop `for _, port := range clusterPorts { go callRegisterBlockRPC(block, port) }`
of `sendBlock`; the goroutine for the `j`-th port meets the `j`-th script (no
answer at all when there is none). -/
def launchCalls (block : Block) : List String → List (List Attempt) → List CallTrace
  | [], _ => []
  | port :: ports, [] => callRegisterBlockRPC block port [] :: launchCalls block ports []
  | port :: ports, script :: scripts =>
    callRegisterBlockRPC block port script :: launchCalls block ports scripts

/-- The number of values the goroutines of `calls` sent on `ensureRPC`. -/
def acksSent (calls : List CallTrace) : Nat :=
  (calls.map (fun t => t.sent.length)).sum

/-- Function `ensureRPCCallsReturn`: receives `numberOfNodes - 1` values from
`ensureRPC`.  `acks` is the number of values that get sent on the channel; the
result is the number left unreceived, or `none` when the loop is still waiting
for a value. -/
def ensureRPCCallsReturn (numberOfNodes : Int) (acks : Nat) : Option Nat :=
  (List.range (wrapInt (numberOfNodes - 1)).toNat).foldlM
    (fun avail _ => if avail = 0 then none else some (avail - 1)) acks

/-- Function `sendBlock`.  `checkConvergence` stands for the method
`client.checkConvergence`, defined outside `main.go`; `scripts` gives the fate
of the attempts of each launched call.  A goroutine that ends the process ends
`sendBlock` with it. -/
def sendBlock (checkConvergence : Globals → Bool) (scripts : List (List Attempt))
    (g : Globals) (block : Block) : Outcome :=
  let calls := launchCalls block g.clusterPorts scripts
  let g1 := { g with converged := checkConvergence g }
  if calls.any (fun t => decide (t.status = CallStatus.fatal)) then
    Outcome.exited g1 none
  else
    match ensureRPCCallsReturn g1.numberOfNodes (acksSent calls) with
    | none => Outcome.blocked g1
    | some _ => prepareForNextIteration g1

/-- The globals `g` of a peer in a network of `numberOfNodes` nodes whose
`clusterPorts` are `ports`. -/
def withCluster (g : Globals) (numberOfNodes : Int) (ports : List String) : Globals :=
  { g with numberOfNodes := numberOfNodes, clusterPorts := ports }

/-- The globals `g` with the pending-update buffer `updates`. -/
def withUpdates (g : Globals) (updates : List Update) : Globals :=
  { g with client := { g.client with blockUpdates := updates } }

/-! ## Quorum detection -/

/-- Modelled from the spec: `client.addBlockUpdate` is defined outside
`main.go`; it stores the update in the pending-update buffer and returns the
count of distinct per-peer updates stored for the round (section 4.3). -/
def addBlockUpdate (c : Honest) (update : Update) : Honest × Int :=
  let stored := c.blockUpdates ++ [update]
  ({ c with blockUpdates := stored }, ((stored.map Update.SourceID).dedup.length : Int))

/-- Modelled from the spec: `client.createBlock` is defined outside `main.go`;
it builds the block of the given iteration from the buffered updates
(section 4.4). -/
def createBlock (_c : Honest) (iterationCount : Int) : Block := ⟨⟨iterationCount⟩⟩

/-- The first part of `processUpdate`: the critical section that stores the
update, and the test `numberOfUpdates == (numberOfNodes - 1)`.  The flag tells
whether this call goes on to `createBlock` and `sendBlock`. -/
def storeAndTest (g : Globals) (update : Update) : Globals × Bool :=
  let r := addBlockUpdate g.client update
  let numberOfUpdates := r.2
  ({ g with client := r.1 }, decide (numberOfUpdates = wrapInt (g.numberOfNodes - 1)))

/-- Function `processUpdate`. -/
def processUpdate (checkConvergence : Globals → Bool) (scripts : List (List Attempt))
    (g : Globals) (update : Update) : Outcome :=
  let r := storeAndTest g update
  if r.2 then
    let blockToSend := createBlock r.1.client r.1.iterationCount
    sendBlock checkConvergence scripts r.1 blockToSend
  else Outcome.returned r.1

/-- The `processUpdate` goroutines of one round, in the order in which they
enter the critical section, none of the block productions having reached
`prepareForNextIteration` yet: for each update, whether its goroutine triggers
block production. -/
def roundTriggers (g : Globals) : List Update → List Bool
  | [] => []
  | update :: rest => (storeAndTest g update).2 :: roundTriggers (storeAndTest g update).1 rest

/-! ## Chain append -/

/-- Modelled from the spec: `client.bc.AddBlockMsg` is defined outside
`main.go`; it appends the block to the chain (section 4.4, `appendBlock`). -/
def AddBlockMsg (bc : Blockchain) (block : Block) : Blockchain :=
  ⟨bc.Blocks ++ [block]⟩

/-- The first part of `addBlockToChain`, up to the call of
`checkConvergence`: the append and the update of `updateSent`. -/
def storeBlock (g : Globals) (block : Block) : Globals :=
  let g1 := { g with client := { g.client with bc := AddBlockMsg g.client.bc block } }
  if block.Data.Iteration = g1.iterationCount then { g1 with updateSent := true } else g1

/-- Function `addBlockToChain`; `checkConvergence` stands for the method
`client.checkConvergence`. -/
def addBlockToChain (checkConvergence : Globals → Bool) (g : Globals) (block : Block) : Outcome :=
  let g2 := storeBlock g block
  let g3 := { g2 with converged := checkConvergence g2 }
  prepareForNextIteration g3

/-- The iterations of the blocks of the chain, in chain order. -/
def chainIterations (g : Globals) : List Int :=
  g.client.bc.Blocks.map (fun b => b.Data.Iteration)

/-! ## One peer under inbound `RegisterBlock` traffic -/

/-- One peer process as its inbound `RegisterBlock` traffic sees it: the
globals, the blocks whose handler is inside its sleep loop, the blocks for
which `go addBlockToChain(block)` was started and has not run yet, whether a
goroutine is in the 1000 ms sleep that precedes `os.Exit(1)`, and whether the
process has ended. -/
structure Node where
  g : Globals
  sleeping : List Block
  started : List Block
  exiting : Bool
  halted : Bool
  deriving DecidableEq, Repr

/-- What can happen next at a peer. -/
inductive Event where
  /-- A `RegisterBlock` call arrives and runs up to its first sleep or to its
  return. -/
  | deliver (block : Block)
  /-- The `k`-th sleeping handler wakes up and tests its loop condition
  again. -/
  | wake (k : Nat)
  /-- The `k`-th started `addBlockToChain` goroutine runs. -/
  | run (k : Nat)
  /-- The goroutine that sleeps in the converged branch of
  `prepareForNextIteration` wakes up, prints the chain and ends the
  process. -/
  | exit
  deriving DecidableEq, Repr

/-- One event at a peer.  Each branch runs the code of `RegisterBlock`
(`deliver`: from its entry; `wake`: one more test of its loop), of
`addBlockToChain` (`run`), or the end of the converged branch of
`prepareForNextIteration` (`exit`).  A goroutine that has entered that branch
leaves the process running until `exit`. -/
def step (checkConvergence : Globals → Bool) (n : Node) : Event → Node
  | Event.deliver block =>
    if n.halted then n else
    match RegisterBlock n.g [] block with
    | HandlerResult.fatal _ => { n with halted := true }
    | HandlerResult.returned _ spawned _ => { n with started := n.started ++ spawned }
    | HandlerResult.waiting _ => { n with sleeping := n.sleeping ++ [block] }
  | Event.wake k =>
    if n.halted then n else
    match n.sleeping[k]? with
    | none => n
    | some block =>
      match awaitIteration block.Data.Iteration n.g.iterationCount [] with
      | none => n
      | some _ => { n with sleeping := n.sleeping.eraseIdx k, started := n.started ++ [block] }
  | Event.run k =>
    if n.halted then n else
    match n.started[k]? with
    | none => n
    | some block =>
      match addBlockToChain checkConvergence n.g block with
      | Outcome.returned g1 => { n with g := g1, started := n.started.eraseIdx k }
      | Outcome.exited g1 _ => { n with g := g1, started := n.started.eraseIdx k, halted := true }
      | Outcome.exiting g1 => { n with g := g1, started := n.started.eraseIdx k, exiting := true }
      | Outcome.panicked g1 => { n with g := g1, started := n.started.eraseIdx k, halted := true }
      | Outcome.blocked g1 => { n with g := g1, started := n.started.eraseIdx k, halted := true }
  | Event.exit =>
    if n.halted then n else
    if n.exiting then { n with halted := true } else n

/-- A sequence of events at a peer. -/
def runEvents (checkConvergence : Globals → Bool) (n : Node) (events : List Event) : Node :=
  events.foldl (step checkConvergence) n

/-- The peer right after the start-up of `main`, when that returned. -/
def startNode (numberOfNodes nodeNum : Int) (datasetName : String) : Option Node :=
  match main numberOfNodes nodeNum datasetName with
  | Outcome.returned g => some ⟨g, [], [], false, false⟩
  | _ => none

/-- The chain holds the iterations 0, 1, 2, ... in this order: no gap, no
duplicate. -/
def GapFree (g : Globals) : Prop :=
  chainIterations g = (List.range g.client.bc.Blocks.length).map (fun k : Nat => (k : Int))

instance (g : Globals) : Decidable (GapFree g) :=
  inferInstanceAs
    (Decidable (chainIterations g
      = (List.range g.client.bc.Blocks.length).map (fun k : Nat => (k : Int))))

/-! ## Theorems -/

/-! ### Auxiliary facts -/

theorem digitVal_digitChar (k : Nat) (h : k < 10) : digitVal (Nat.digitChar k) = k := by
  interval_cases k <;> rfl

theorem foldl_toDigitsCore (fuel : Nat) : ∀ (n : Nat) (ds : List Char), n < fuel →
    (Nat.toDigitsCore 10 fuel n ds).foldl (fun acc c => acc * 10 + digitVal c) 0
      = ds.foldl (fun acc c => acc * 10 + digitVal c) n := by
  induction fuel with
  | zero => intro n ds h; omega
  | succ f ih =>
    intro n ds h
    unfold Nat.toDigitsCore
    simp only
    split
    · simp only [List.foldl_cons, Nat.zero_mul, Nat.zero_add]
      rw [digitVal_digitChar _ (Nat.mod_lt _ (by decide))]
      congr 1; omega
    · rw [ih _ _ (by omega)]
      simp only [List.foldl_cons]
      rw [digitVal_digitChar _ (Nat.mod_lt _ (by decide))]
      congr 1; omega

theorem Atoi_repr (n : Nat) : Atoi (Nat.repr n).data = n := by
  unfold Atoi Nat.repr Nat.toDigits
  simp only [List.asString]
  rw [foldl_toDigitsCore _ _ _ (by omega)]
  rfl

theorem Itoa_natCast (n : Nat) : Itoa (n : Int) = Nat.repr n := rfl

/-- On non-negative integers `Itoa` is injective: two ports are equal as
strings only when they are equal as numbers. -/
theorem Itoa_inj_of_nonneg {a b : Int} (ha : 0 ≤ a) (hb : 0 ≤ b) (h : Itoa a = Itoa b) :
    a = b := by
  obtain ⟨m, rfl⟩ := Int.eq_ofNat_of_zero_le ha
  obtain ⟨n, rfl⟩ := Int.eq_ofNat_of_zero_le hb
  rw [Itoa_natCast, Itoa_natCast] at h
  have h2 := congrArg (fun s => Atoi s.data) h
  simp only [Atoi_repr] at h2
  exact congrArg _ h2

theorem toDigitsCore_head (fuel : Nat) : ∀ (n : Nat) (ds : List Char), n < fuel →
    ∃ (d : Nat) (l : List Char), d < 10 ∧
      Nat.toDigitsCore 10 fuel n ds = Nat.digitChar d :: l := by
  induction fuel with
  | zero => intro n ds h; omega
  | succ f ih =>
    intro n ds h
    unfold Nat.toDigitsCore
    simp only
    split
    · exact ⟨n % 10, ds, Nat.mod_lt _ (by decide), rfl⟩
    · exact ih _ _ (by omega)

theorem digitChar_ne_minus (d : Nat) (h : d < 10) : Nat.digitChar d ≠ '-' := by
  interval_cases d <;> decide

theorem repr_data_ne_minus (n : Nat) (l : List Char) : (Nat.repr n).data ≠ '-' :: l := by
  obtain ⟨d, l2, hd, h⟩ := toDigitsCore_head (n + 1) n [] (by omega)
  unfold Nat.repr Nat.toDigits
  simp only [List.asString]
  rw [h]
  intro e
  injection e with e1 _
  exact digitChar_ne_minus d hd e1

theorem Itoa_negSucc_data (n : Nat) :
    (Itoa (Int.negSucc n)).data = '-' :: (Nat.repr (n + 1)).data := by
  show ("-" ++ Nat.repr (n + 1)).data = _
  rw [String.data_append]
  rfl

/-- The function `Itoa` is injective: two ports are equal as strings only when
they are equal as numbers. -/
theorem Itoa_inj {a b : Int} (h : Itoa a = Itoa b) : a = b := by
  cases a with
  | ofNat m =>
    cases b with
    | ofNat n => exact Itoa_inj_of_nonneg (Int.ofNat_nonneg m) (Int.ofNat_nonneg n) h
    | negSucc n =>
      have h2 := congrArg String.data h
      rw [Itoa_negSucc_data] at h2
      exact absurd h2 (repr_data_ne_minus m _)
  | negSucc m =>
    cases b with
    | ofNat n =>
      have h2 := congrArg String.data h
      rw [Itoa_negSucc_data] at h2
      exact absurd h2.symm (repr_data_ne_minus n _)
    | negSucc n =>
      have h2 := congrArg String.data h
      rw [Itoa_negSucc_data, Itoa_negSucc_data] at h2
      injection h2 with _ h3
      have h4 := congrArg Atoi h3
      rw [Atoi_repr, Atoi_repr] at h4
      have : m = n := by omega
      rw [this]

theorem wrapInt_inj_of_window {x y : Int} (hx0 : 0 ≤ x) (hx1 : x < 18446744073709551616)
    (hy0 : 0 ≤ y) (hy1 : y < 18446744073709551616) (h : wrapInt x = wrapInt y) : x = y := by
  unfold wrapInt at h
  omega

theorem wrapInt_of_range {x : Int} (hlo : -9223372036854775808 ≤ x)
    (hhi : x ≤ 9223372036854775807) : wrapInt x = x := by
  unfold wrapInt
  omega

theorem goRem_of_pos {T i : Int} (hT : 0 < T) (hi : 0 ≤ i) : goRem i T = some (i % T) := by
  unfold goRem
  rw [if_neg (by omega), Int.tmod_eq_emod hi (by omega)]

theorem amVerifier_atRound {T i : Int} (hT : 0 < T) (hi : 0 ≤ i) (g : Globals)
    (id nodeNum : Int) :
    amVerifier (atRound g i T id) nodeNum = some (decide (id = i % T)) := by
  unfold amVerifier atRound
  simp only [goRem_of_pos hT hi]
  by_cases h : i % T = id
  · simp [h]
  · have h2 : ¬ id = i % T := fun e => h e.symm
    simp [h, h2]

/-! ### Verifier election (C2, C3) -/

/-- C2: for `T > 0` nodes and a round `i ≥ 0`, `amVerifier` answers `true` for
the node `id` exactly when `id = i mod T`; that index lies in `0..T-1`, so
exactly one node of `0..T-1` is the verifier; and the answer depends on
`(i, T, id)` only, so asking again gives the same answer. -/
theorem amVerifier_exactly_one (T i : Int) (hT : 0 < T) (hi : 0 ≤ i) (g : Globals)
    (nodeNum : Int) :
    (∀ id : Int, amVerifier (atRound g i T id) nodeNum = some (decide (id = i % T))) ∧
    (0 ≤ i % T ∧ i % T < T) ∧
    (∃! id : Int, 0 ≤ id ∧ id < T ∧ amVerifier (atRound g i T id) nodeNum = some true) ∧
    (∀ (id : Int) (g2 : Globals) (nodeNum2 : Int),
      amVerifier (atRound g2 i T id) nodeNum2 = amVerifier (atRound g i T id) nodeNum) := by
  have hlo : 0 ≤ i % T := Int.emod_nonneg _ (by omega)
  have hhi : i % T < T := Int.emod_lt_of_pos _ hT
  refine ⟨fun id => amVerifier_atRound hT hi g id nodeNum, ⟨hlo, hhi⟩, ?_, ?_⟩
  · refine ⟨i % T, ⟨hlo, hhi, ?_⟩, ?_⟩
    · rw [amVerifier_atRound hT hi]; simp
    · rintro id ⟨_, _, h⟩
      rw [amVerifier_atRound hT hi] at h
      simpa using h
  · intro id g2 nodeNum2
    rw [amVerifier_atRound hT hi, amVerifier_atRound hT hi]

/-- Witness of C2 with three nodes in round 7: node 1 is the verifier, node 0
is not. -/
theorem amVerifier_exactly_one_witness :
    (0 : Int) < 3 ∧ (0 : Int) ≤ 7 ∧
    amVerifier (atRound zeroGlobals 7 3 1) 0 = some true ∧
    amVerifier (atRound zeroGlobals 7 3 0) 0 = some false :=
  ⟨by decide, by decide,
    by simpa using (amVerifier_exactly_one 3 7 (by decide) (by decide) zeroGlobals 0).1 1,
    by simpa using (amVerifier_exactly_one 3 7 (by decide) (by decide) zeroGlobals 0).1 0⟩

/-- C3 fails as stated: Go `int` addition wraps.  With
`T = 9223372036854775807` nodes in round `i = 9223372036854775806` the entry
of `VRF i` is the decimal string of `-9223372036854767810`, not that of
`basePort + (i mod T)`, and it is not the port of node `i mod T`, for which
`amVerifier` is true. -/
theorem VRF_wraps_for_huge_networks :
    VRF (atRound zeroGlobals 9223372036854775806 9223372036854775807 0) 9223372036854775806
      = some ["-9223372036854767810"] ∧
    Itoa (basePort + 9223372036854775806 % 9223372036854775807) = "9223372036854783806" ∧
    amVerifier (atRound zeroGlobals 9223372036854775806 9223372036854775807
      9223372036854775806) 0 = some true := by
  decide

/-- C3 as amended: for `T > 0` with `basePort + (T - 1)` not beyond the largest
`int`, and `i ≥ 0`, `VRF i` is a list of exactly `numVerifiers = 1` entries,
its entry being the decimal string of `basePort + (i mod T)`; and for a node
`id` of `0..T-1` that entry is the node's own port
`strconv.Itoa(id + basePort)` exactly when `amVerifier` is true for the node
in round `i`. -/
theorem VRF_agrees_with_amVerifier (T i : Int) (hT : 0 < T) (hi : 0 ≤ i)
    (hfit : basePort + (T - 1) ≤ maxInt) (g : Globals) :
    (∀ id : Int, VRF (atRound g i T id) i = some [Itoa (basePort + i % T)]) ∧
    (∀ (id : Int) (ports : List String),
      VRF (atRound g i T id) i = some ports → ports.length = numVerifiers ∧ numVerifiers = 1) ∧
    (∀ id nodeNum : Int, 0 ≤ id → id < T →
      (Itoa (basePort + i % T) = myPort id ↔
        amVerifier (atRound g i T id) nodeNum = some true)) := by
  have hlo : 0 ≤ i % T := Int.emod_nonneg _ (by omega)
  have hhi : i % T < T := Int.emod_lt_of_pos _ hT
  unfold basePort maxInt at hfit
  have hw : wrapInt (basePort + i % T) = basePort + i % T :=
    wrapInt_of_range (by unfold basePort; omega) (by unfold basePort; omega)
  have hvrf : ∀ id : Int, VRF (atRound g i T id) i = some [Itoa (basePort + i % T)] := by
    intro id
    unfold VRF atRound
    simp only [goRem_of_pos hT hi, hw]
    rfl
  refine ⟨hvrf, ?_, ?_⟩
  · intro id ports h
    rw [hvrf id] at h
    injection h with h
    subst h
    exact ⟨rfl, rfl⟩
  · intro id nodeNum h0 hlt
    rw [amVerifier_atRound hT hi]
    unfold myPort
    rw [wrapInt_of_range (x := id + basePort) (by unfold basePort; omega)
      (by unfold basePort; omega)]
    constructor
    · intro h
      have := Itoa_inj_of_nonneg (by unfold basePort; omega) (by unfold basePort; omega) h
      simp; omega
    · intro h
      have h2 : id = i % T := by simpa using h
      rw [h2, Int.add_comm]

/-- Witness of the amended C3 with three nodes in round 7: the slot is port
8001, the port of node 1. -/
theorem VRF_agrees_with_amVerifier_witness :
    (0 : Int) < 3 ∧ (0 : Int) ≤ 7 ∧ basePort + ((3 : Int) - 1) ≤ maxInt ∧
    VRF (atRound zeroGlobals 7 3 1) 7 = some ["8001"] ∧ myPort 1 = "8001" :=
  ⟨by decide, by decide, by decide,
    (VRF_agrees_with_amVerifier 3 7 (by decide) (by decide) (by decide) zeroGlobals).1 1,
    by decide⟩

/-! ### Inbound handlers (C1, C9) -/

theorem awaitIteration_of_le {m c : Int} (h : m ≤ c) (polls : List Int) :
    awaitIteration m c polls = some 0 := by
  cases polls <;> simp [awaitIteration, Int.not_lt.mpr h]

theorem awaitIteration_all_below {m : Int} : ∀ (polls : List Int) (c : Int), c < m →
    (∀ p ∈ polls, p < m) → awaitIteration m c polls = none := by
  intro polls
  induction polls with
  | nil => intro c hc _; simp [awaitIteration, hc]
  | cons p rest ih =>
    intro c hc hall
    have hp : p < m := hall p (List.mem_cons_self _ _)
    have hrest : ∀ q ∈ rest, q < m := fun q hq => hall q (List.mem_cons_of_mem _ hq)
    simp [awaitIteration, hc, ih p hp hrest]

theorem awaitIteration_caught_up {m : Int} : ∀ (early : List Int) (c p : Int) (later : List Int),
    c < m → (∀ q ∈ early, q < m) → m ≤ p →
    awaitIteration m c (early ++ p :: later) = some (early.length + 1) := by
  intro early
  induction early with
  | nil =>
    intro c p later hc _ hp
    simp [awaitIteration, hc, awaitIteration_of_le hp]
  | cons q rest ih =>
    intro c p later hc hall hp
    have hq : q < m := hall q (List.mem_cons_self _ _)
    have hrest : ∀ r ∈ rest, r < m := fun r hr => hall r (List.mem_cons_of_mem _ hr)
    simp [awaitIteration, hc, ih q p later hq hrest hp]

theorem awaitIteration_some {m : Int} : ∀ (polls : List Int) (c : Int) (k : Nat), c < m →
    awaitIteration m c polls = some k →
    ∃ (early : List Int) (p : Int) (later : List Int),
      polls = early ++ p :: later ∧ k = early.length + 1 ∧ m ≤ p ∧ ∀ q ∈ early, q < m := by
  intro polls
  induction polls with
  | nil => intro c k hc h; simp [awaitIteration, hc] at h
  | cons p rest ih =>
    intro c k hc h
    by_cases hp : m ≤ p
    · refine ⟨[], p, rest, rfl, ?_, hp, by simp⟩
      simp [awaitIteration, hc, awaitIteration_of_le hp] at h
      simp only [List.length_nil]
      omega
    · have hp2 : p < m := by omega
      simp only [awaitIteration, gt_iff_lt, hc, if_true, Option.map_eq_some'] at h
      obtain ⟨j, hj, rfl⟩ := h
      obtain ⟨early, p2, later, hsplit, hlen, hle, hall⟩ := ih p j hp2 hj
      refine ⟨p :: early, p2, later, by rw [hsplit]; rfl, by simp [hlen], hle, ?_⟩
      intro q hq
      rcases List.mem_cons.mp hq with rfl | hq
      · exact hp2
      · exact hall q hq

/-- C1: staleness gating of `VerifyUpdate` and `RegisterBlock`.  With `m` the
iteration of the message and `c` the local `iterationCount`: if `m < c` the
handler takes the fatal path with `staleError` and starts no goroutine; if
`m = c` it starts the goroutine for the message once and returns `nil`; if
`m > c` it stays in its sleep loop for as long as the polled `iterationCount`
is below `m` (it neither fails nor drops the message), and at the first poll
that finds `iterationCount = m` it starts the goroutine for that same message
once and returns `nil`. -/
theorem staleness_gating (g : Globals) (update : Update) (block : Block) :
    ((update.Iteration < g.iterationCount →
        ∀ polls, VerifyUpdate g polls update = HandlerResult.fatal staleError) ∧
     (update.Iteration = g.iterationCount →
        ∀ polls, VerifyUpdate g polls update = HandlerResult.returned none [update] 0) ∧
     (update.Iteration > g.iterationCount →
        (∀ polls, (∀ p ∈ polls, p < update.Iteration) →
          VerifyUpdate g polls update = HandlerResult.waiting polls.length) ∧
        (∀ early later, (∀ p ∈ early, p < update.Iteration) →
          VerifyUpdate g (early ++ update.Iteration :: later) update
            = HandlerResult.returned none [update] (early.length + 1)))) ∧
    ((block.Data.Iteration < g.iterationCount →
        ∀ polls, RegisterBlock g polls block = HandlerResult.fatal staleError) ∧
     (block.Data.Iteration = g.iterationCount →
        ∀ polls, RegisterBlock g polls block = HandlerResult.returned none [block] 0) ∧
     (block.Data.Iteration > g.iterationCount →
        (∀ polls, (∀ p ∈ polls, p < block.Data.Iteration) →
          RegisterBlock g polls block = HandlerResult.waiting polls.length) ∧
        (∀ early later, (∀ p ∈ early, p < block.Data.Iteration) →
          RegisterBlock g (early ++ block.Data.Iteration :: later) block
            = HandlerResult.returned none [block] (early.length + 1)))) := by
  refine ⟨⟨?_, ?_, ?_⟩, ⟨?_, ?_, ?_⟩⟩
  · intro h polls
    simp [VerifyUpdate, h, handleErrorFatal]
  · intro h polls
    simp [VerifyUpdate, h, awaitIteration_of_le (Int.le_refl _)]
  · intro h
    have hn : ¬ update.Iteration < g.iterationCount := by omega
    refine ⟨fun polls hall => ?_, fun early later hall => ?_⟩
    · simp [VerifyUpdate, hn, awaitIteration_all_below polls _ h hall]
    · simp [VerifyUpdate, hn,
        awaitIteration_caught_up early _ update.Iteration later h hall (Int.le_refl _)]
  · intro h polls
    simp [RegisterBlock, h, handleErrorFatal]
  · intro h polls
    simp [RegisterBlock, h, awaitIteration_of_le (Int.le_refl _)]
  · intro h
    have hn : ¬ block.Data.Iteration < g.iterationCount := by omega
    refine ⟨fun polls hall => ?_, fun early later hall => ?_⟩
    · simp [RegisterBlock, hn, awaitIteration_all_below polls _ h hall]
    · simp [RegisterBlock, hn,
        awaitIteration_caught_up early _ block.Data.Iteration later h hall (Int.le_refl _)]

/-- Witness of C1 at a peer in round 2: an update of round 1 is fatal, a block
of round 2 is taken at once, an update of round 3 is taken at the poll that
finds round 3. -/
theorem staleness_gating_witness :
    VerifyUpdate (atRound zeroGlobals 2 3 0) [] ⟨1, 1⟩ = HandlerResult.fatal staleError ∧
    RegisterBlock (atRound zeroGlobals 2 3 0) [] ⟨⟨2⟩⟩
      = HandlerResult.returned none [⟨⟨2⟩⟩] 0 ∧
    VerifyUpdate (atRound zeroGlobals 2 3 0) [2, 2, 3, 4] ⟨3, 1⟩
      = HandlerResult.returned none [⟨3, 1⟩] 3 :=
  ⟨(staleness_gating (atRound zeroGlobals 2 3 0) ⟨1, 1⟩ ⟨⟨2⟩⟩).1.1 (by decide) [],
   (staleness_gating (atRound zeroGlobals 2 3 0) ⟨1, 1⟩ ⟨⟨2⟩⟩).2.2.1 (by decide) [],
   (staleness_gating (atRound zeroGlobals 2 3 0) ⟨3, 1⟩ ⟨⟨2⟩⟩).1.2.2 (by decide) |>.2
      [2, 2] [4] (by decide)⟩

/-- C9 fails on the code: a peer in round 0 that receives an update or a block
of round 1 has not returned after three sleeps during which it still found
round 0, and returns only after the poll that finds round 1, although the doc
comments of both handlers say that the message is taken in and the handler
returns immediately. -/
theorem handler_waits_for_future_round :
    VerifyUpdate (atRound zeroGlobals 0 3 0) [0, 0, 0] ⟨1, 1⟩ = HandlerResult.waiting 3 ∧
    RegisterBlock (atRound zeroGlobals 0 3 0) [0, 0, 0] ⟨⟨1⟩⟩ = HandlerResult.waiting 3 ∧
    VerifyUpdate (atRound zeroGlobals 0 3 0) [0, 0, 0, 1] ⟨1, 1⟩
      = HandlerResult.returned none [⟨1, 1⟩] 4 ∧
    RegisterBlock (atRound zeroGlobals 0 3 0) [0, 0, 0, 1] ⟨⟨1⟩⟩
      = HandlerResult.returned none [⟨⟨1⟩⟩] 4 := by
  decide

/-! ### Round advance and convergence (C4, C10) -/

theorem prepareForNextIteration_running (g : Globals) (hconv : g.converged = false)
    (hT : g.numberOfNodes ≠ 0) :
    ∃ g1, prepareForNextIteration g = Outcome.returned g1 ∧
      g1.iterationCount = wrapInt (g.iterationCount + 1) ∧
      g1.verifier
        = decide (Int.tmod (wrapInt (g.iterationCount + 1)) g.numberOfNodes = g.client.id) ∧
      g1.updateSent = g1.verifier ∧
      g1.numberOfNodes = g.numberOfNodes ∧ g1.client.id = g.client.id ∧
      g1.converged = false ∧ g1.client.bc = g.client.bc := by
  unfold prepareForNextIteration
  rw [hconv]
  cases hv : g.verifier <;>
    by_cases hid : Int.tmod (wrapInt (g.iterationCount + 1)) g.numberOfNodes = g.client.id <;>
    simp [amVerifier, goRem, hT, hid, hconv, flushUpdates]

theorem advanceRounds_running : ∀ (k : Nat) (g : Globals), g.converged = false →
    g.numberOfNodes ≠ 0 → 1 ≤ k → minInt ≤ g.iterationCount →
    g.iterationCount + (k : Int) ≤ maxInt →
    ∃ gk, advanceRounds k g = Outcome.returned gk ∧
      gk.iterationCount = g.iterationCount + k ∧
      gk.verifier = decide (Int.tmod (g.iterationCount + k) g.numberOfNodes = g.client.id) ∧
      gk.updateSent = gk.verifier ∧
      gk.numberOfNodes = g.numberOfNodes ∧ gk.client.id = g.client.id ∧
      gk.converged = false := by
  intro k
  induction k with
  | zero => intro g _ _ h; omega
  | succ j ih =>
    intro g hconv hT _ hmin hmax
    unfold minInt at hmin
    unfold maxInt at hmax
    obtain ⟨g1, hrun, hic, hver, hsent, hn, hid, hc, _⟩ :=
      prepareForNextIteration_running g hconv hT
    have hw : wrapInt (g.iterationCount + 1) = g.iterationCount + 1 :=
      wrapInt_of_range (by omega) (by push_cast at hmax; omega)
    rw [hw] at hic hver
    by_cases hj : j = 0
    · subst hj
      refine ⟨g1, ?_, ?_, ?_, hsent, hn, hid, hc⟩
      · simp [advanceRounds, hrun]
      · simp [hic]
      · simpa using hver
    · obtain ⟨gk, hk, hkic, hkver, hksent, hkn, hkid, hkc⟩ :=
        ih g1 hc (by rw [hn]; exact hT) (by omega) (by unfold minInt; omega)
          (by unfold maxInt; push_cast at hmax; omega)
      refine ⟨gk, ?_, ?_, ?_, hksent, by rw [hkn, hn], by rw [hkid, hid], hkc⟩
      · simp [advanceRounds, hrun, hk]
      · rw [hkic, hic]; push_cast; omega
      · rw [hkver, hic, hn, hid]
        have : g.iterationCount + 1 + (j : Int) = g.iterationCount + ((j + 1 : Nat) : Int) := by
          push_cast; omega
        rw [this]

theorem main_running (numberOfNodes nodeNum : Int) (datasetName : String)
    (hflags : flagsRejected numberOfNodes nodeNum datasetName = false) :
    ∃ g, main numberOfNodes nodeNum datasetName = Outcome.returned g ∧
      g.numberOfNodes = numberOfNodes ∧
      g.clusterPorts = buildClusterPorts numberOfNodes nodeNum ∧
      g.iterationCount = 0 ∧ g.client.bc.Blocks = [] ∧ g.client.id = nodeNum ∧
      g.verifier = decide (nodeNum = 0) ∧ g.updateSent = g.verifier ∧
      g.converged = false := by
  have hT : numberOfNodes ≠ 0 := by
    simp only [flagsRejected, Bool.or_eq_false_iff, decide_eq_false_iff_not] at hflags
    omega
  obtain ⟨g1, hrun, hic, hver, hsent, hnum, hid, hc, hbc⟩ := prepareForNextIteration_running
    { zeroGlobals with
      numberOfNodes := numberOfNodes, datasetName := datasetName,
      clusterPorts := buildClusterPorts numberOfNodes nodeNum,
      client := { zeroGlobals.client with id := nodeNum, blockUpdates := [] },
      converged := false, verifier := false } rfl hT
  have hw : wrapInt (zeroGlobals.iterationCount + 1) = 0 := by decide
  refine ⟨g1, ?_, hnum, ?_, by rw [hic]; exact hw, by rw [hbc]; rfl, hid, ?_, hsent, hc⟩
  · unfold main
    rw [hflags]
    exact hrun
  · unfold prepareForNextIteration at hrun
    simp only [Bool.false_eq_true, if_false] at hrun
    split at hrun
    · exact absurd hrun (by simp)
    · injection hrun with hrun
      rw [← hrun]
      split <;> rfl
  · rw [hver]
    show decide (Int.tmod (wrapInt (zeroGlobals.iterationCount + 1)) numberOfNodes = nodeNum)
      = decide (nodeNum = 0)
    rw [hw]
    by_cases h : nodeNum = 0
    · simp [h]
    · have h2 : ¬ (0 : Int) = nodeNum := fun e => h e.symm
      simp [h, h2]

/-- C4 fails as stated in two states with `converged = false`: with
`numberOfNodes = 0` the `%` of `amVerifier` panics and no `verifier` or
`updateSent` is set; with `iterationCount` at the largest `int` the increment
wraps to the smallest `int` instead of adding 1. -/
theorem round_advance_fails_at_the_edges :
    (atRound zeroGlobals 0 0 0).converged = false ∧
    prepareForNextIteration (atRound zeroGlobals 0 0 0)
      = Outcome.panicked (atRound zeroGlobals 1 0 0) ∧
    (atRound zeroGlobals 9223372036854775807 3 0).converged = false ∧
    prepareForNextIteration (atRound zeroGlobals 9223372036854775807 3 0)
      = Outcome.returned
          { atRound zeroGlobals (-9223372036854775808) 3 0 with
            verifier := false, updateSent := false } := by
  decide

/-- C4 as amended: in a state with `converged = false`, `numberOfNodes ≠ 0` and
`iterationCount` an `int` below the largest `int`, `prepareForNextIteration` returns
with `iterationCount` increased by exactly 1, `verifier` set to
`(new iterationCount % numberOfNodes == client.id)`, which is the mathematical
`mod` when `numberOfNodes > 0` and the new count is not negative, and
`updateSent` equal to the new `verifier`.  Hence, from the initial
`iterationCount = -1`, after `k ≥ 1` such calls (`k - 1` an `int`),
`iterationCount = k - 1`, with the verifier flag of round `k - 1`; the first
round is round 0 and its verifier is node 0, which is also the state in which
`main` leaves every peer it starts. -/
theorem round_advance (g : Globals) (hconv : g.converged = false)
    (hT : g.numberOfNodes ≠ 0) (hmin : minInt ≤ g.iterationCount)
    (hmax : g.iterationCount < maxInt) :
    (∃ g1, prepareForNextIteration g = Outcome.returned g1 ∧
      g1.iterationCount = g.iterationCount + 1 ∧
      g1.verifier = decide (Int.tmod g1.iterationCount g.numberOfNodes = g.client.id) ∧
      (0 < g.numberOfNodes → 0 ≤ g1.iterationCount →
        g1.verifier = decide (g1.iterationCount % g.numberOfNodes = g.client.id)) ∧
      g1.updateSent = g1.verifier) ∧
    (g.iterationCount = -1 → ∀ k : Nat, 1 ≤ k → (k : Int) - 1 ≤ maxInt →
      ∃ gk, advanceRounds k g = Outcome.returned gk ∧
        gk.iterationCount = (k : Int) - 1 ∧
        gk.verifier = decide (Int.tmod ((k : Int) - 1) g.numberOfNodes = g.client.id) ∧
        (0 < g.numberOfNodes →
          gk.verifier = decide (((k : Int) - 1) % g.numberOfNodes = g.client.id)) ∧
        gk.updateSent = gk.verifier) ∧
    (g.iterationCount = -1 →
      ∃ g1, prepareForNextIteration g = Outcome.returned g1 ∧
        g1.iterationCount = 0 ∧ g1.verifier = decide (g.client.id = 0)) ∧
    (∀ (T nodeNum : Int) (datasetName : String), flagsRejected T nodeNum datasetName = false →
      ∃ g1, main T nodeNum datasetName = Outcome.returned g1 ∧
        g1.iterationCount = 0 ∧ g1.verifier = decide (nodeNum = 0) ∧
        g1.updateSent = g1.verifier) := by
  obtain ⟨g1, hrun, hic, hver, hsent, _, _, _, _⟩ :=
    prepareForNextIteration_running g hconv hT
  have hw : wrapInt (g.iterationCount + 1) = g.iterationCount + 1 := by
    unfold minInt at hmin
    unfold maxInt at hmax
    exact wrapInt_of_range (by omega) (by omega)
  rw [hw] at hic hver
  refine ⟨⟨g1, hrun, hic, by rw [hver, hic], ?_, hsent⟩, ?_, ?_, ?_⟩
  · intro hpos h0
    rw [hver, ← hic, Int.tmod_eq_emod h0 (by omega)]
  · intro hstart k hk hkmax
    obtain ⟨gk, hk1, hkic, hkver, hksent, _, _, _⟩ :=
      advanceRounds_running k g hconv hT hk hmin (by rw [hstart]; omega)
    have he : g.iterationCount + (k : Int) = (k : Int) - 1 := by rw [hstart]; omega
    rw [he] at hkic hkver
    refine ⟨gk, hk1, hkic, hkver, ?_, hksent⟩
    intro hpos
    rw [hkver, Int.tmod_eq_emod (by omega) (by omega)]
  · intro hstart
    refine ⟨g1, hrun, by rw [hic, hstart]; rfl, ?_⟩
    rw [hver, hstart]
    have : Int.tmod (-1 + 1) g.numberOfNodes = 0 := by simp
    rw [this]
    by_cases h : g.client.id = 0
    · simp [h]
    · have h2 : ¬ (0 : Int) = g.client.id := fun e => h e.symm
      simp [h, h2]
  · intro T nodeNum datasetName hflags
    obtain ⟨g2, hm, _, _, hic2, _, _, hver2, hsent2, _⟩ := main_running T nodeNum datasetName hflags
    exact ⟨g2, hm, hic2, hver2, hsent2⟩

/-- Witness of the amended C4 for node 1 of 3 before its first round: four
calls lead to round 3, whose verifier is node 0, so node 1 is not the
verifier. -/
theorem round_advance_witness :
    (atRound zeroGlobals (-1) 3 1).converged = false ∧
    (atRound zeroGlobals (-1) 3 1).numberOfNodes ≠ 0 ∧
    minInt ≤ (atRound zeroGlobals (-1) 3 1).iterationCount ∧
    (atRound zeroGlobals (-1) 3 1).iterationCount < maxInt ∧
    ∃ gk, advanceRounds 4 (atRound zeroGlobals (-1) 3 1) = Outcome.returned gk ∧
      gk.iterationCount = ((4 : Nat) : Int) - 1 ∧
      gk.verifier = decide (Int.tmod (((4 : Nat) : Int) - 1) (3 : Int) = 1) ∧
      (0 < (3 : Int) → gk.verifier = decide ((((4 : Nat) : Int) - 1) % (3 : Int) = 1)) ∧
      gk.updateSent = gk.verifier :=
  ⟨rfl, by decide, by decide, by decide,
    (round_advance (atRound zeroGlobals (-1) 3 1) rfl (by decide) (by decide) (by decide)).2.1
      rfl 4 (by decide) (by decide)⟩

theorem step_of_halted (checkConvergence : Globals → Bool) (n : Node) (h : n.halted = true)
    (e : Event) : step checkConvergence n e = n := by
  cases e <;> simp [step, h]

theorem runEvents_of_halted (checkConvergence : Globals → Bool) (events : List Event) :
    ∀ n : Node, n.halted = true → runEvents checkConvergence n events = n := by
  induction events with
  | nil => intro n _; rfl
  | cons e rest ih =>
    intro n h
    unfold runEvents at ih ⊢
    rw [List.foldl_cons, step_of_halted checkConvergence n h e]
    exact ih n h

theorem storeBlock_facts (g : Globals) (block : Block) :
    (storeBlock g block).client.bc.Blocks = g.client.bc.Blocks ++ [block] ∧
    (storeBlock g block).iterationCount = g.iterationCount ∧
    (storeBlock g block).verifier = g.verifier ∧
    (storeBlock g block).numberOfNodes = g.numberOfNodes ∧
    (storeBlock g block).client.id = g.client.id ∧
    (storeBlock g block).client.blockUpdates = g.client.blockUpdates := by
  unfold storeBlock AddBlockMsg
  by_cases h : block.Data.Iteration = g.iterationCount <;> simp [h]

theorem prepareForNextIteration_converged (g : Globals) (h : g.converged = true) :
    prepareForNextIteration g = Outcome.exiting g := by
  simp [prepareForNextIteration, h]

/-- C10 fails as stated.  (a) `sendBlock` of a verifier of 4 nodes gets `true`
from `checkConvergence` and then waits for acknowledgments with the process
alive; an inbound block of the current round passes `RegisterBlock`, and
`addBlockToChain` appends it, overwrites `converged` with the new answer of
`checkConvergence` (`false` here) and advances to round 1.  (b) At node 2 of
3 a block of round 0 arrives twice; the goroutine of the first copy gets
`true` from `checkConvergence` and sleeps before `os.Exit`; the process still
runs, and the goroutine of the second copy appends a further block. -/
theorem blocks_appended_after_convergence :
    sendBlock (fun g => decide (g.client.bc.Blocks.length = 0)) []
        (withCluster (atRound zeroGlobals 0 4 0) 4 ["8001", "8002", "8003"]) ⟨⟨0⟩⟩
      = Outcome.blocked
          { withCluster (atRound zeroGlobals 0 4 0) 4 ["8001", "8002", "8003"] with
            converged := true } ∧
    RegisterBlock
        { withCluster (atRound zeroGlobals 0 4 0) 4 ["8001", "8002", "8003"] with
          converged := true } [] ⟨⟨0⟩⟩
      = HandlerResult.returned none [⟨⟨0⟩⟩] 0 ∧
    addBlockToChain (fun g => decide (g.client.bc.Blocks.length = 0))
        { withCluster (atRound zeroGlobals 0 4 0) 4 ["8001", "8002", "8003"] with
          converged := true } ⟨⟨0⟩⟩
      = Outcome.returned
          { withCluster (atRound zeroGlobals 1 4 0) 4 ["8001", "8002", "8003"] with
            client := ⟨0, ⟨0, 0⟩, [], ⟨[⟨⟨0⟩⟩]⟩⟩, updateSent := false,
            portsToConnect := ["8001", "8002", "8003"] } ∧
    (startNode 3 2 "creditcard").map
        (fun n => (chainIterations (runEvents (fun _ => true) n
            [Event.deliver ⟨⟨0⟩⟩, Event.deliver ⟨⟨0⟩⟩, Event.run 0]).g,
          (runEvents (fun _ => true) n
            [Event.deliver ⟨⟨0⟩⟩, Event.deliver ⟨⟨0⟩⟩, Event.run 0]).exiting,
          (runEvents (fun _ => true) n
            [Event.deliver ⟨⟨0⟩⟩, Event.deliver ⟨⟨0⟩⟩, Event.run 0]).halted))
      = some ([0], true, false) ∧
    (startNode 3 2 "creditcard").map
        (fun n => chainIterations (runEvents (fun _ => true) n
            [Event.deliver ⟨⟨0⟩⟩, Event.deliver ⟨⟨0⟩⟩, Event.run 0, Event.run 0]).g)
      = some [0, 0] := by
  decide

/-- C10 as amended: in a state with `converged = true`,
`prepareForNextIteration` enters the sleep that precedes the exit with the
globals untouched (no increment of `iterationCount`, no change of `verifier`
or `updateSent`, no flush), and on waking emits the chain and ends the
process.  So the goroutine in which `checkConvergence` returned true makes no
round advance and appends nothing after that: `addBlockToChain` goes from its
own append straight into that sleep, `sendBlock` never returns to a next round
(it enters that sleep once the acknowledgments are in, ends the process on a
fatal RPC error, or still waits for acknowledgments), in both cases with
`iterationCount` unchanged; and a peer whose process has ended takes no
further step. -/
theorem converged_stops_node (checkConvergence : Globals → Bool) (g : Globals) (block : Block) :
    (g.converged = true →
      prepareForNextIteration g = Outcome.exiting g ∧
      exitAfterSleep g = Outcome.exited g (some g.client.bc.Blocks)) ∧
    (checkConvergence (storeBlock g block) = true →
      ∃ g1, addBlockToChain checkConvergence g block = Outcome.exiting g1 ∧
        g1 = { storeBlock g block with converged := true } ∧
        g1.iterationCount = g.iterationCount ∧ g1.verifier = g.verifier ∧
        g1.client.blockUpdates = g.client.blockUpdates ∧
        g1.client.bc.Blocks = g.client.bc.Blocks ++ [block]) ∧
    (checkConvergence g = true → ∀ scripts,
      sendBlock checkConvergence scripts g block
        = Outcome.exiting { g with converged := true } ∨
      sendBlock checkConvergence scripts g block
        = Outcome.exited { g with converged := true } none ∨
      sendBlock checkConvergence scripts g block
        = Outcome.blocked { g with converged := true }) ∧
    (∀ (n : Node) (k : Nat) (b : Block), n.halted = false → n.started[k]? = some b →
      checkConvergence (storeBlock n.g b) = true →
      (step checkConvergence n (Event.run k)).exiting = true ∧
      (step checkConvergence n (Event.run k)).g.iterationCount = n.g.iterationCount ∧
      (step checkConvergence n (Event.run k)).g.client.bc.Blocks = n.g.client.bc.Blocks ++ [b] ∧
      (step checkConvergence (step checkConvergence n (Event.run k)) Event.exit).halted = true ∧
      (step checkConvergence (step checkConvergence n (Event.run k)) Event.exit).g
        = (step checkConvergence n (Event.run k)).g) ∧
    (∀ (n : Node) (events : List Event), n.halted = true →
      runEvents checkConvergence n events = n) := by
  have hadd : ∀ (g : Globals) (block : Block), checkConvergence (storeBlock g block) = true →
      addBlockToChain checkConvergence g block
        = Outcome.exiting { storeBlock g block with converged := true } := by
    intro g block h
    unfold addBlockToChain
    simp only [h]
    exact prepareForNextIteration_converged _ rfl
  refine ⟨fun h => ⟨prepareForNextIteration_converged g h, rfl⟩, ?_, ?_, ?_,
    fun n events h => runEvents_of_halted checkConvergence events n h⟩
  · intro h
    obtain ⟨h1, h2, h3, _, _, h6⟩ := storeBlock_facts g block
    exact ⟨_, hadd g block h, rfl, h2, h3, h6, h1⟩
  · intro h scripts
    unfold sendBlock
    simp only [h]
    split
    · exact Or.inr (Or.inl rfl)
    · split
      · exact Or.inr (Or.inr rfl)
      · exact Or.inl (prepareForNextIteration_converged _ rfl)
  · intro n k b hn hk h
    have hstep : step checkConvergence n (Event.run k)
        = { n with g := { storeBlock n.g b with converged := true },
                   started := n.started.eraseIdx k, exiting := true } := by
      simp [step, hn, hk, hadd n.g b h]
    rw [hstep]
    refine ⟨rfl, (storeBlock_facts n.g b).2.1, (storeBlock_facts n.g b).1, ?_, ?_⟩
    · simp [step, hn]
    · simp [step, hn]

/-- Witness of the amended C10: a converged peer in round 2 with one block in
its chain enters the exit sleep, the globals being what they were. -/
theorem converged_stops_node_witness :
    prepareForNextIteration
        { atRound zeroGlobals 2 3 0 with converged := true, client := ⟨0, ⟨0, 0⟩, [], ⟨[⟨⟨0⟩⟩]⟩⟩ }
      = Outcome.exiting
        { atRound zeroGlobals 2 3 0 with converged := true, client := ⟨0, ⟨0, 0⟩, [], ⟨[⟨⟨0⟩⟩]⟩⟩ } :=
  ((converged_stops_node (fun _ => true)
    { atRound zeroGlobals 2 3 0 with converged := true, client := ⟨0, ⟨0, 0⟩, [], ⟨[⟨⟨0⟩⟩]⟩⟩ }
    ⟨⟨0⟩⟩).1 rfl).1

/-! ### Block broadcast (C6, C7) -/

theorem callRegisterBlockRPC_after_timeouts (block : Block) (port : String) :
    ∀ (n : Nat) (tail : List Attempt),
    callRegisterBlockRPC block port (List.replicate n Attempt.timedOut ++ tail)
      = ⟨List.replicate n (block, port) ++ (callRegisterBlockRPC block port tail).attempts,
         (callRegisterBlockRPC block port tail).sent,
         (callRegisterBlockRPC block port tail).status⟩ := by
  intro n
  induction n with
  | zero => intro tail; simp
  | succ j ih =>
    intro tail
    rw [List.replicate_succ, List.cons_append]
    simp only [callRegisterBlockRPC]
    rw [ih tail]
    simp [List.replicate_succ]

theorem callRegisterBlockRPC_sent (block : Block) (port : String) :
    ∀ script : List Attempt,
    (callRegisterBlockRPC block port script).sent.length
      = if (callRegisterBlockRPC block port script).status = CallStatus.delivered then 1 else 0 := by
  intro script
  induction script with
  | nil => simp [callRegisterBlockRPC]
  | cons a rest ih =>
    cases a with
    | dialFailed e => simp [callRegisterBlockRPC, exitOnError]
    | timedOut => simpa [callRegisterBlockRPC] using ih
    | replied err => cases err <;> simp [callRegisterBlockRPC, handleErrorFatal]

theorem acksSent_launchCalls (block : Block) : ∀ (ports : List String) (scripts : List (List Attempt)),
    acksSent (launchCalls block ports scripts)
      = ((launchCalls block ports scripts).filter
          (fun t => decide (t.status = CallStatus.delivered))).length := by
  intro ports
  induction ports with
  | nil => intro scripts; simp [launchCalls, acksSent]
  | cons port rest ih =>
    intro scripts
    cases scripts with
    | nil =>
      have h := ih []
      unfold acksSent at h ⊢
      simp only [launchCalls, List.map_cons, List.sum_cons, h, callRegisterBlockRPC_sent,
        List.filter_cons]
      split
      · simp [*]; omega
      · simp [*]
    | cons script more =>
      have h := ih more
      unfold acksSent at h ⊢
      simp only [launchCalls, List.map_cons, List.sum_cons, h, callRegisterBlockRPC_sent,
        List.filter_cons]
      split
      · simp [*]; omega
      · simp [*]

theorem launchCalls_length (block : Block) : ∀ (ports : List String) (scripts : List (List Attempt)),
    (launchCalls block ports scripts).length = ports.length := by
  intro ports
  induction ports with
  | nil => intro scripts; simp [launchCalls]
  | cons port rest ih =>
    intro scripts
    cases scripts <;> simp [launchCalls, ih]

theorem callRegisterBlockRPC_head (block : Block) (port : String) (script : List Attempt) :
    (callRegisterBlockRPC block port script).attempts.head? = some (block, port) := by
  cases script with
  | nil => rfl
  | cons a rest =>
    cases a with
    | dialFailed e => simp [callRegisterBlockRPC, exitOnError]
    | timedOut => simp [callRegisterBlockRPC]
    | replied err => cases err <;> simp [callRegisterBlockRPC, handleErrorFatal]

theorem launchCalls_heads (block : Block) : ∀ (ports : List String) (scripts : List (List Attempt)),
    (launchCalls block ports scripts).map (fun t => t.attempts.head?)
      = ports.map (fun port => some (block, port)) := by
  intro ports
  induction ports with
  | nil => intro scripts; simp [launchCalls]
  | cons port rest ih =>
    intro scripts
    cases scripts <;> simp [launchCalls, ih, callRegisterBlockRPC_head]

theorem receive_loop (n : Nat) : ∀ acks : Nat,
    (List.range n).foldlM (fun (avail : Nat) (_ : Nat) =>
        if avail = 0 then (none : Option Nat) else some (avail - 1)) acks
      = if n ≤ acks then some (acks - n) else none := by
  induction n with
  | zero => intro acks; simp
  | succ j ih =>
    intro acks
    rw [List.range_succ, List.foldlM_append, ih acks]
    by_cases h : j ≤ acks
    · rw [if_pos h]
      by_cases h2 : j + 1 ≤ acks
      · have h3 : ¬ acks - j = 0 := by omega
        simp only [Option.bind_eq_bind, Option.some_bind, List.foldlM_cons, List.foldlM_nil, h3,
          if_false, if_pos h2, Option.pure_def]
        congr 1
      · have h3 : acks - j = 0 := by omega
        simp [h3, h2]
    · have h2 : ¬ j + 1 ≤ acks := by omega
      simp [h, h2]

theorem ensureRPCCallsReturn_eq (numberOfNodes : Int) (acks : Nat) :
    ensureRPCCallsReturn numberOfNodes acks
      = if (wrapInt (numberOfNodes - 1)).toNat ≤ acks
        then some (acks - (wrapInt (numberOfNodes - 1)).toNat)
        else none := by
  unfold ensureRPCCallsReturn
  exact receive_loop _ acks

/-- C7: with each attempt of `callRegisterBlockRPC(block, port)` a timeout, an
answer or a failed dial: `n` timeouts followed by a `nil` answer make `n + 1`
attempts, all with the same block and port, and send exactly one value, `nil`,
on `ensureRPC`; after `n` timeouts a failed dial or an error answer ends the
process and nothing is sent.  A call sends one value exactly when it was
delivered, so `sendBlock` goes on to `prepareForNextIteration` only with as
many delivered calls as `ensureRPCCallsReturn` awaits: with 4 nodes and 3
ports it waits while the peer that timed out has not answered its retry and
advances once all 3 calls are delivered. -/
theorem retry_delivers_one_ack_or_fatal (block : Block) (port : String) (n : Nat)
    (rest : List Attempt) (checkConvergence : Globals → Bool) (g : Globals)
    (p1 p2 p3 : String) :
    callRegisterBlockRPC block port (List.replicate n Attempt.timedOut ++ Attempt.replied none :: rest)
      = ⟨List.replicate (n + 1) (block, port), [none], CallStatus.delivered⟩ ∧
    (∀ e, callRegisterBlockRPC block port
        (List.replicate n Attempt.timedOut ++ Attempt.dialFailed e :: rest)
      = ⟨List.replicate (n + 1) (block, port), [], CallStatus.fatal⟩) ∧
    (∀ e, callRegisterBlockRPC block port
        (List.replicate n Attempt.timedOut ++ Attempt.replied (some e) :: rest)
      = ⟨List.replicate (n + 1) (block, port), [], CallStatus.fatal⟩) ∧
    (∀ ports scripts, acksSent (launchCalls block ports scripts)
      = ((launchCalls block ports scripts).filter
          (fun t => decide (t.status = CallStatus.delivered))).length) ∧
    (∀ scripts, acksSent (launchCalls block [p1, p2, p3] scripts) < 3 →
      ∀ g1, sendBlock checkConvergence scripts (withCluster g 4 [p1, p2, p3]) block
        ≠ Outcome.returned g1) ∧
    sendBlock checkConvergence [[Attempt.timedOut], [Attempt.replied none], [Attempt.replied none]]
        (withCluster g 4 [p1, p2, p3]) block
      = Outcome.blocked
          { withCluster g 4 [p1, p2, p3] with
            converged := checkConvergence (withCluster g 4 [p1, p2, p3]) } ∧
    sendBlock checkConvergence
        [[Attempt.timedOut, Attempt.replied none], [Attempt.replied none], [Attempt.replied none]]
        (withCluster g 4 [p1, p2, p3]) block
      = prepareForNextIteration
          { withCluster g 4 [p1, p2, p3] with
            converged := checkConvergence (withCluster g 4 [p1, p2, p3]) } := by
  have hrep : ∀ k : Nat, List.replicate k (block, port) ++ [(block, port)]
      = List.replicate (k + 1) (block, port) := by
    intro k; rw [List.replicate_succ']
  refine ⟨?_, ?_, ?_, acksSent_launchCalls block, ?_, ?_, ?_⟩
  · rw [callRegisterBlockRPC_after_timeouts]
    simp [callRegisterBlockRPC, handleErrorFatal, hrep]
  · intro e
    rw [callRegisterBlockRPC_after_timeouts]
    simp [callRegisterBlockRPC, exitOnError, hrep]
  · intro e
    rw [callRegisterBlockRPC_after_timeouts]
    simp [callRegisterBlockRPC, handleErrorFatal, hrep]
  · intro scripts hlt g1
    unfold sendBlock
    simp only [withCluster]
    split
    · simp
    · rw [ensureRPCCallsReturn_eq]
      have h3 : ¬ 3 ≤ acksSent (launchCalls block [p1, p2, p3] scripts) := by omega
      have h4 : wrapInt 3 = 3 := by decide
      simp [h3, h4]
  · simp [sendBlock, withCluster, launchCalls, callRegisterBlockRPC, handleErrorFatal, acksSent,
      ensureRPCCallsReturn_eq, show wrapInt 3 = 3 by decide]
  · simp [sendBlock, withCluster, launchCalls, callRegisterBlockRPC, handleErrorFatal, acksSent,
      ensureRPCCallsReturn_eq, show wrapInt 3 = 3 by decide]

/-- Witness of C7: while two of three calls are delivered and the third has
only timed out, `sendBlock` of a 4-node verifier has not returned. -/
theorem retry_delivers_one_ack_or_fatal_witness :
    acksSent (launchCalls ⟨⟨0⟩⟩ ["8001", "8002", "8003"]
        [[Attempt.timedOut], [Attempt.replied none], [Attempt.replied none]]) < 3 ∧
    sendBlock (fun _ => false)
        [[Attempt.timedOut], [Attempt.replied none], [Attempt.replied none]]
        (withCluster (atRound zeroGlobals 0 4 0) 4 ["8001", "8002", "8003"]) ⟨⟨0⟩⟩
      ≠ Outcome.returned (atRound zeroGlobals 1 4 0) :=
  ⟨by decide,
   (retry_delivers_one_ack_or_fatal ⟨⟨0⟩⟩ "8001" 1 [] (fun _ => false) (atRound zeroGlobals 0 4 0)
      "8001" "8002" "8003").2.2.2.2.1
      [[Attempt.timedOut], [Attempt.replied none], [Attempt.replied none]] (by decide)
      (atRound zeroGlobals 1 4 0)⟩

theorem foldl_skip_own (skip : Nat → Bool) (f : Nat → String) :
    ∀ (l : List Nat) (acc : List String),
    l.foldl (fun ports i => if skip i = true then ports else ports ++ [f i]) acc
      = acc ++ (l.filter (fun i => ! skip i)).map f := by
  intro l
  induction l with
  | nil => intro acc; simp
  | cons i rest ih =>
    intro acc
    rw [List.foldl_cons, ih]
    cases h : skip i <;> simp [h]

theorem port_eq_iff {j m : Nat} (hj : (j : Int) < 9223372036854775808)
    (hm : (m : Int) < 9223372036854775808) :
    Itoa (wrapInt (basePort + (j : Int))) = myPort (m : Int) ↔ j = m := by
  unfold myPort basePort
  constructor
  · intro e
    have e2 := wrapInt_inj_of_window (by omega) (by omega) (by omega) (by omega) (Itoa_inj e)
    omega
  · intro e
    rw [e, Int.add_comm]

theorem buildClusterPorts_eq (numberOfNodes : Int) (m : Nat) (hlt : (m : Int) < numberOfNodes)
    (hint : numberOfNodes ≤ maxInt) :
    buildClusterPorts numberOfNodes (m : Int)
      = ((List.range numberOfNodes.toNat).filter (fun j : Nat => decide (j ≠ m))).map
          (fun j : Nat => myPort (j : Int)) := by
  unfold maxInt at hint
  unfold buildClusterPorts
  have h := foldl_skip_own
    (fun i => decide (Itoa (wrapInt (basePort + (i : Int))) = myPort (m : Int)))
    (fun i => Itoa (wrapInt (basePort + (i : Int)))) (List.range numberOfNodes.toNat) []
  simp only [decide_eq_true_eq, List.nil_append] at h
  rw [h]
  have hmap : (fun i : Nat => Itoa (wrapInt (basePort + (i : Int))))
      = (fun j : Nat => myPort (j : Int)) := by
    funext i
    unfold myPort
    rw [Int.add_comm]
  rw [hmap]
  have hf : (List.range numberOfNodes.toNat).filter
        (fun i : Nat => ! decide (Itoa (wrapInt (basePort + (i : Int))) = myPort (m : Int)))
      = (List.range numberOfNodes.toNat).filter (fun j : Nat => decide (j ≠ m)) := by
    apply List.filter_congr
    intro j hj
    have hj2 : j < numberOfNodes.toNat := List.mem_range.mp hj
    have hiff := port_eq_iff (j := j) (m := m) (by omega) (by omega)
    by_cases e : j = m
    · have e2 := hiff.mpr e
      simp only [e2]
      simp [e]
    · have e2 := mt hiff.mp e
      simp only [e2]
      simp [e]
  rw [hf]

theorem sendBlock_eq (checkConvergence : Globals → Bool) (scripts : List (List Attempt))
    (g : Globals) (block : Block) :
    sendBlock checkConvergence scripts g block
      = if (launchCalls block g.clusterPorts scripts).any
            (fun t => decide (t.status = CallStatus.fatal)) = true then
          Outcome.exited { g with converged := checkConvergence g } none
        else if (wrapInt (g.numberOfNodes - 1)).toNat
            ≤ ((launchCalls block g.clusterPorts scripts).filter
                (fun t => decide (t.status = CallStatus.delivered))).length then
          prepareForNextIteration { g with converged := checkConvergence g }
        else Outcome.blocked { g with converged := checkConvergence g } := by
  unfold sendBlock
  simp only
  split
  · rfl
  · rw [ensureRPCCallsReturn_eq, acksSent_launchCalls]
    by_cases hc : (wrapInt (g.numberOfNodes - 1)).toNat
        ≤ ((launchCalls block g.clusterPorts scripts).filter
            (fun t => decide (t.status = CallStatus.delivered))).length
    · rw [if_pos hc, if_pos hc]
    · rw [if_neg hc, if_neg hc]

theorem length_filter_ne (m : Nat) : ∀ n : Nat,
    ((List.range n).filter (fun j => decide (j ≠ m))).length = if m < n then n - 1 else n := by
  intro n
  induction n with
  | zero => simp
  | succ k ih =>
    rw [List.range_succ, List.filter_append, List.length_append, ih]
    by_cases h1 : m < k
    · have h2 : k ≠ m := by omega
      have h3 : m < k + 1 := by omega
      simp [h1, h2, h3]; omega
    · by_cases h2 : k = m
      · subst h2; simp
      · have h3 : ¬ m < k + 1 := by omega
        simp [h1, h2, h3]

/-- C6 fails as stated: the flags `-t 3 -i 5` pass the test of `main`, yet
`clusterPorts` then holds all 3 ports, `sendBlock` launches 3 calls, and
`ensureRPCCallsReturn` returns after 2 acknowledgments: `sendBlock` goes on
to `prepareForNextIteration` while its third call has not answered. -/
theorem fanout_exceeds_acks_for_large_index :
    flagsRejected 3 5 "creditcard" = false ∧
    (startNode 3 5 "creditcard").map (fun n => n.g.clusterPorts)
      = some ["8000", "8001", "8002"] ∧
    (launchCalls ⟨⟨0⟩⟩ (buildClusterPorts 3 5) []).length = 3 ∧
    ensureRPCCallsReturn 3 3 = some 1 ∧
    ensureRPCCallsReturn 3 2 = some 0 ∧
    (startNode 3 5 "creditcard").map
        (fun n => decide (sendBlock (fun _ => false)
            [[Attempt.replied none], [Attempt.replied none], []] n.g ⟨⟨0⟩⟩
          = prepareForNextIteration n.g))
      = some true := by
  decide

/-- C6 as amended: for flags that `main` accepts (`numberOfNodes = T > 0`, an
`int`, index `≥ 0`, non-empty dataset name) and an index below `T`, the
`clusterPorts` that `main` builds are the ports of the other peers `j` of
`0..T-1`, in order, the own port left out and no port twice.  So `sendBlock`
launches exactly `T - 1` calls of `callRegisterBlockRPC`, one per other peer,
and goes on to `prepareForNextIteration` exactly when all `T - 1` of them
have delivered their acknowledgment, `ensureRPCCallsReturn` receiving these
`T - 1` values and leaving none: with a call still unanswered it waits, with
a fatal call the process ends. -/
theorem fanout_matches_acks (T nodeNum : Int) (datasetName : String)
    (hflags : flagsRejected T nodeNum datasetName = false) (hlt : nodeNum < T)
    (hint : T ≤ maxInt)
    (checkConvergence : Globals → Bool) (block : Block) (scripts : List (List Attempt)) :
    ∃ g, main T nodeNum datasetName = Outcome.returned g ∧ g.numberOfNodes = T ∧
      g.clusterPorts
        = ((List.range T.toNat).filter (fun j : Nat => decide ((j : Int) ≠ nodeNum))).map
            (fun j : Nat => myPort (j : Int)) ∧
      myPort nodeNum ∉ g.clusterPorts ∧
      g.clusterPorts.Nodup ∧
      (∀ j : Int, 0 ≤ j → j < T → j ≠ nodeNum → myPort j ∈ g.clusterPorts) ∧
      (g.clusterPorts.length : Int) = T - 1 ∧
      ((launchCalls block g.clusterPorts scripts).length : Int) = T - 1 ∧
      (launchCalls block g.clusterPorts scripts).map (fun t => t.attempts.head?)
        = g.clusterPorts.map (fun port => some (block, port)) ∧
      sendBlock checkConvergence scripts g block
        = (if (launchCalls block g.clusterPorts scripts).any
              (fun t => decide (t.status = CallStatus.fatal)) = true then
            Outcome.exited { g with converged := checkConvergence g } none
          else if (((launchCalls block g.clusterPorts scripts).filter
              (fun t => decide (t.status = CallStatus.delivered))).length : Int) = T - 1 then
            prepareForNextIteration { g with converged := checkConvergence g }
          else Outcome.blocked { g with converged := checkConvergence g }) ∧
      (∀ acks left : Nat, ensureRPCCallsReturn g.numberOfNodes acks = some left →
        ((acks - left : Nat) : Int) = T - 1) ∧
      (∀ acks : Nat, (acks : Int) < T - 1 → ensureRPCCallsReturn g.numberOfNodes acks = none) := by
  have hT : 0 < T := by
    simp only [flagsRejected, Bool.or_eq_false_iff, decide_eq_false_iff_not] at hflags
    omega
  have hn : 0 ≤ nodeNum := by
    simp only [flagsRejected, Bool.or_eq_false_iff, decide_eq_false_iff_not] at hflags
    omega
  obtain ⟨m, rfl⟩ := Int.eq_ofNat_of_zero_le hn
  obtain ⟨t, rfl⟩ := Int.eq_ofNat_of_zero_le (Int.le_of_lt hT)
  have hmt : m < t := by omega
  have heq := buildClusterPorts_eq (t : Int) m hlt hint
  unfold maxInt at hint
  obtain ⟨g, hm, hnum, hports, _⟩ := main_running (t : Int) (m : Int) datasetName hflags
  rw [heq] at hports
  have hfilt : (List.range (t : Int).toNat).filter (fun j : Nat => decide ((j : Int) ≠ (m : Int)))
      = (List.range (t : Int).toNat).filter (fun j : Nat => decide (j ≠ m)) := by
    apply List.filter_congr
    intro j _
    simp
  have hinj : ∀ a ∈ List.range (t : Int).toNat, ∀ b ∈ List.range (t : Int).toNat,
      myPort (a : Int) = myPort (b : Int) → a = b := by
    intro a ha b hb e
    have ha2 : a < (t : Int).toNat := List.mem_range.mp ha
    have hb2 : b < (t : Int).toNat := List.mem_range.mp hb
    have e2 : Itoa (wrapInt (basePort + (a : Int))) = myPort (b : Int) := by
      rw [← e]; unfold myPort; rw [Int.add_comm]
    exact (port_eq_iff (by omega) (by omega)).mp e2
  have hlen : g.clusterPorts.length = t - 1 := by
    rw [hports, List.length_map]
    have h := length_filter_ne m t
    rw [if_pos hmt] at h
    simpa using h
  have hw : (wrapInt (g.numberOfNodes - 1)).toNat = t - 1 := by
    rw [hnum, wrapInt_of_range (by omega) (by omega)]
    omega
  have hcalls := launchCalls_length block g.clusterPorts scripts
  have hdel := List.length_filter_le (fun t : CallTrace => decide (t.status = CallStatus.delivered))
    (launchCalls block g.clusterPorts scripts)
  refine ⟨g, hm, hnum, by rw [hports, hfilt], ?_, ?_, ?_, ?_, ?_, ?_, ?_, ?_, ?_⟩
  · rw [hports]
    intro hmem
    obtain ⟨j, hj, e⟩ := List.mem_map.mp hmem
    obtain ⟨hjr, hj2⟩ := List.mem_filter.mp hj
    have := hinj j hjr m (List.mem_range.mpr (by omega)) e
    simp at hj2
    omega
  · rw [hports]
    refine List.Nodup.map_on ?_ (List.Nodup.filter _ (List.nodup_range _))
    intro a ha b hb e
    exact hinj a (List.mem_filter.mp ha).1 b (List.mem_filter.mp hb).1 e
  · intro j h0 hjt hne
    obtain ⟨k, rfl⟩ := Int.eq_ofNat_of_zero_le h0
    rw [hports]
    refine List.mem_map.mpr ⟨k, List.mem_filter.mpr ⟨List.mem_range.mpr (by omega), ?_⟩, rfl⟩
    simp
    omega
  · rw [hlen]; omega
  · rw [hcalls, hlen]; omega
  · exact launchCalls_heads block g.clusterPorts scripts
  · rw [sendBlock_eq, hw]
    split
    · rfl
    · have hiff : (t - 1 ≤ ((launchCalls block g.clusterPorts scripts).filter
            (fun t => decide (t.status = CallStatus.delivered))).length)
          ↔ ((((launchCalls block g.clusterPorts scripts).filter
            (fun t => decide (t.status = CallStatus.delivered))).length : Int) = (t : Int) - 1) := by
        rw [hcalls, hlen] at hdel
        omega
      by_cases hc : t - 1 ≤ ((launchCalls block g.clusterPorts scripts).filter
            (fun t => decide (t.status = CallStatus.delivered))).length
      · rw [if_pos hc, if_pos (hiff.mp hc)]
      · rw [if_neg hc, if_neg (mt hiff.mpr hc)]
  · intro acks left h
    rw [ensureRPCCallsReturn_eq, hw] at h
    by_cases hle : t - 1 ≤ acks
    · rw [if_pos hle] at h
      injection h with h
      omega
    · rw [if_neg hle] at h
      exact absurd h (by simp)
  · intro acks h
    rw [ensureRPCCallsReturn_eq, hw, if_neg (by omega)]

/-- Witness of the amended C6 for node 1 of 3: the cluster ports are 8000 and
8002. -/
theorem fanout_matches_acks_witness :
    flagsRejected 3 1 "creditcard" = false ∧ (1 : Int) < 3 ∧ (3 : Int) ≤ maxInt ∧
    ∃ g, main 3 1 "creditcard" = Outcome.returned g ∧ g.numberOfNodes = 3 ∧
      g.clusterPorts
        = ((List.range (3 : Int).toNat).filter (fun j : Nat => decide ((j : Int) ≠ 1))).map
            (fun j : Nat => myPort (j : Int)) :=
  ⟨by decide, by decide, by decide,
    (fanout_matches_acks 3 1 "creditcard" (by decide) (by decide) (by decide)
      (fun _ => false) ⟨⟨0⟩⟩ []).imp (fun _ h => ⟨h.1, h.2.1, h.2.2.1⟩)⟩

/-! ### Quorum detection (C5) -/

/-- C5 fails on the code: at a verifier of 4 nodes with an empty buffer, the
updates of the peers 1 and 2 are stored and `processUpdate` returns; the update
of peer 3 brings the count of distinct per-peer updates to 3 and `processUpdate`
goes into `createBlock` and `sendBlock`, which waits for its acknowledgments;
a second update of peer 1 arriving then leaves the count at 3, the test
`numberOfUpdates == (numberOfNodes - 1)` holds again, and `processUpdate`
goes into `createBlock` and `sendBlock` a second time in the same round. -/
theorem duplicate_update_triggers_again :
    (withCluster (atRound zeroGlobals 0 4 0) 4 ["8001", "8002", "8003"]).client.blockUpdates
      = [] ∧
    processUpdate (fun _ => false) []
        (withCluster (atRound zeroGlobals 0 4 0) 4 ["8001", "8002", "8003"]) ⟨0, 1⟩
      = Outcome.returned
          (withUpdates (withCluster (atRound zeroGlobals 0 4 0) 4 ["8001", "8002", "8003"])
            [⟨0, 1⟩]) ∧
    processUpdate (fun _ => false) []
        (withUpdates (withCluster (atRound zeroGlobals 0 4 0) 4 ["8001", "8002", "8003"])
          [⟨0, 1⟩]) ⟨0, 2⟩
      = Outcome.returned
          (withUpdates (withCluster (atRound zeroGlobals 0 4 0) 4 ["8001", "8002", "8003"])
            [⟨0, 1⟩, ⟨0, 2⟩]) ∧
    processUpdate (fun _ => false) []
        (withUpdates (withCluster (atRound zeroGlobals 0 4 0) 4 ["8001", "8002", "8003"])
          [⟨0, 1⟩, ⟨0, 2⟩]) ⟨0, 3⟩
      = sendBlock (fun _ => false) []
          (withUpdates (withCluster (atRound zeroGlobals 0 4 0) 4 ["8001", "8002", "8003"])
            [⟨0, 1⟩, ⟨0, 2⟩, ⟨0, 3⟩]) ⟨⟨0⟩⟩ ∧
    sendBlock (fun _ => false) []
        (withUpdates (withCluster (atRound zeroGlobals 0 4 0) 4 ["8001", "8002", "8003"])
          [⟨0, 1⟩, ⟨0, 2⟩, ⟨0, 3⟩]) ⟨⟨0⟩⟩
      = Outcome.blocked
          (withUpdates (withCluster (atRound zeroGlobals 0 4 0) 4 ["8001", "8002", "8003"])
            [⟨0, 1⟩, ⟨0, 2⟩, ⟨0, 3⟩]) ∧
    processUpdate (fun _ => false) []
        (withUpdates (withCluster (atRound zeroGlobals 0 4 0) 4 ["8001", "8002", "8003"])
          [⟨0, 1⟩, ⟨0, 2⟩, ⟨0, 3⟩]) ⟨0, 1⟩
      = sendBlock (fun _ => false) []
          (withUpdates (withCluster (atRound zeroGlobals 0 4 0) 4 ["8001", "8002", "8003"])
            [⟨0, 1⟩, ⟨0, 2⟩, ⟨0, 3⟩, ⟨0, 1⟩]) ⟨⟨0⟩⟩ ∧
    sendBlock (fun _ => false) []
        (withUpdates (withCluster (atRound zeroGlobals 0 4 0) 4 ["8001", "8002", "8003"])
          [⟨0, 1⟩, ⟨0, 2⟩, ⟨0, 3⟩, ⟨0, 1⟩]) ⟨⟨0⟩⟩
      = Outcome.blocked
          (withUpdates (withCluster (atRound zeroGlobals 0 4 0) 4 ["8001", "8002", "8003"])
            [⟨0, 1⟩, ⟨0, 2⟩, ⟨0, 3⟩, ⟨0, 1⟩]) ∧
    roundTriggers (withCluster (atRound zeroGlobals 0 4 0) 4 ["8001", "8002", "8003"])
        [⟨0, 1⟩, ⟨0, 2⟩, ⟨0, 3⟩, ⟨0, 1⟩]
      = [false, false, true, true] := by
  decide

/-! ### Chain append (C8) -/

/-- C8 fails on the code: a peer of 3 nodes in round 0 receives the block of
round 1 twice and then the block of round 0.  Both handlers for round 1 sleep;
after the block of round 0 is appended the first one hands its block over in
round 1, and the second one, waking in round 2, leaves its loop as well (its
test is `1 > 2`) and hands the same block over again.  The chain then holds
the iterations 0, 1, 1 and `iterationCount` is 3.  Likewise, when the block of
round 0 arrives twice before the goroutine of the first copy has run (the
sender retries after a timeout), both copies pass the test of `RegisterBlock`
and the chain holds the iterations 0, 0. -/
theorem duplicate_block_breaks_chain :
    (startNode 3 2 "creditcard").map
        (fun n => chainIterations (runEvents (fun _ => false) n
          [Event.deliver ⟨⟨1⟩⟩, Event.deliver ⟨⟨1⟩⟩, Event.deliver ⟨⟨0⟩⟩, Event.run 0,
           Event.wake 0, Event.run 0, Event.wake 0, Event.run 0]).g)
      = some [0, 1, 1] ∧
    (startNode 3 2 "creditcard").map
        (fun n => (runEvents (fun _ => false) n
          [Event.deliver ⟨⟨1⟩⟩, Event.deliver ⟨⟨1⟩⟩, Event.deliver ⟨⟨0⟩⟩, Event.run 0,
           Event.wake 0, Event.run 0, Event.wake 0, Event.run 0]).g.iterationCount)
      = some 3 ∧
    (startNode 3 2 "creditcard").map
        (fun n => (runEvents (fun _ => false) n
          [Event.deliver ⟨⟨1⟩⟩, Event.deliver ⟨⟨1⟩⟩, Event.deliver ⟨⟨0⟩⟩, Event.run 0,
           Event.wake 0, Event.run 0, Event.wake 0, Event.run 0]).halted)
      = some false ∧
    (startNode 3 2 "creditcard").map
        (fun n => decide (GapFree (runEvents (fun _ => false) n
          [Event.deliver ⟨⟨1⟩⟩, Event.deliver ⟨⟨1⟩⟩, Event.deliver ⟨⟨0⟩⟩, Event.run 0,
           Event.wake 0, Event.run 0, Event.wake 0, Event.run 0]).g))
      = some false ∧
    RegisterBlock (atRound zeroGlobals 0 3 2) [0, 2] ⟨⟨1⟩⟩
      = HandlerResult.returned none [⟨⟨1⟩⟩] 2 ∧
    (startNode 3 2 "creditcard").map
        (fun n => chainIterations (runEvents (fun _ => false) n
          [Event.deliver ⟨⟨0⟩⟩, Event.deliver ⟨⟨0⟩⟩, Event.run 0, Event.run 0]).g)
      = some [0, 0] := by
  decide

end Biscotti
